import Mathlib

/-!
Shallow embedding of the SpotifySlackBot repository (Python) in Lean 4.

The embedding covers the parts of the program exercised by the claims:

* `src/slack_bot/utils.py` — the emoji codec (`convert_emoji_to_number`)
  and the template formatter (`format_stats_message`, which delegates to
  CPython's `str.format`);
* `src/slack_bot/handlers.py` — the message and reaction handlers
  (`handle_spotify_track_message`, `handle_reaction_added`,
  `handle_reaction_removed`);
* `src/database/database.py` — the SQLite store
  (`insert_song_with_artists`, `fetch_songs`, `update_song_message_link`,
  `insert_reaction`, `remove_reaction`, `fetch_reaction`,
  `get_top_songs`, `get_unrated_songs`).

The SQLite tables are modelled as Lean lists of row structures in insertion
order (matching ROWID order for these tables, which are only appended to by
the modelled operations).  Python string operations (`split`, `replace`,
slicing, `str.format`) are modelled on `List Char`.  The Slack network
boundary (message fetch, permalink generation, track-metadata fetch) is
modelled by passing the fetched values as parameters to the handlers.
-/

namespace SpotifyBot

/-! ## Data model: the SQLite schema of `database.py` as lists of rows -/

/-- A row of the `songs` table: `id` (PRIMARY KEY), `title`, `album`,
`user` (the submitter), and the nullable `message_link`. -/
structure Song where
  id : String
  title : String
  album : String
  user : String
  message_link : Option String
deriving DecidableEq

/-- A row of the `artists` table: `id` (PRIMARY KEY), `name` (UNIQUE). -/
structure ArtistRow where
  id : String
  name : String
deriving DecidableEq

/-- A row of the `song_artists` join table (PRIMARY KEY (song_id, artist_id)). -/
structure SongArtistRow where
  song_id : String
  artist_id : String
deriving DecidableEq

/-- A row of the `reactions` table.  The synthetic AUTOINCREMENT `id` is not
modelled: rows are distinct list entries, and `COUNT(DISTINCT r.id)` is the
number of row entries. -/
structure ReactionRow where
  song_id : String
  user : String
  reaction : Nat
deriving DecidableEq

/-- The database state: the four tables, each in insertion (ROWID) order. -/
structure DB where
  songs : List Song
  artists : List ArtistRow
  song_artists : List SongArtistRow
  reactions : List ReactionRow
deriving DecidableEq

/-- The empty database produced by `_create_tables`. -/
def emptyDB : DB := ⟨[], [], [], []⟩

/-- Python truthiness of an optional string: `None` and `""` are falsy
(`if not original_message_link: ...`). -/
def isTruthy : Option String → Bool
  | none => false
  | some s => !s.isEmpty

/-! ## Reaction codec (`utils.convert_emoji_to_number`) -/

/-- `convert_emoji_to_number` from `slack_bot/utils.py`: dictionary lookup
with default 0.  The dictionary has exactly the ten keys below; the function
is total and never raises. -/
def convert_emoji_to_number (emoji : String) : Nat :=
  if emoji = "one" then 1
  else if emoji = "two" then 2
  else if emoji = "three" then 3
  else if emoji = "four" then 4
  else if emoji = "five" then 5
  else if emoji = "six" then 6
  else if emoji = "seven" then 7
  else if emoji = "eight" then 8
  else if emoji = "nine" then 9
  else if emoji = "keycap_ten" then 10
  else 0

/-- The key set of the `emoji_to_number` dictionary in
`convert_emoji_to_number` (ten symbols; there is no `"ten"` key). -/
def codecVocabulary : List String :=
  ["one", "two", "three", "four", "five", "six", "seven", "eight", "nine",
   "keycap_ten"]

/-- The explicit reaction whitelist shared by `handle_reaction_added` and
`handle_reaction_removed` (eleven symbols; includes `"zero"`). -/
def emojiWhitelist : List String :=
  ["zero", "one", "two", "three", "four", "five", "six", "seven", "eight",
   "nine", "keycap_ten"]

/-! ## Timestamp handling of the two reaction handlers

`handle_reaction_added` (handlers.py:177–181) compares
`message_ts.replace(".", "")` against
`original_message_link.split("/")[-1].replace("p", "")`;
`handle_reaction_removed` (handlers.py:272–277) compares `message_ts`
against the link timestamp with a `"."` re-inserted after ten characters. -/

/-- Python `s.split(c)` on a single-character separator. -/
def splitChar (sep : Char) : List Char → List (List Char)
  | [] => [[]]
  | c :: cs =>
    let rest := splitChar sep cs
    if c = sep then [] :: rest
    else
      match rest with
      | [] => [[c]]
      | seg :: segs => (c :: seg) :: segs

/-- `link.split("/")[-1].replace("p", "")` (handlers.py:177 and 272):
the last `/`-separated segment with every `'p'` removed. -/
def linkTimestampDigits (link : String) : List Char :=
  ((splitChar '/' link.data).getLastD []).filter (fun c => c ≠ 'p')

/-- The add-path check (handlers.py:180–181): the event timestamp with every
`'.'` removed must equal the link's digit string. -/
def addTsMatches (messageTs link : String) : Prop :=
  messageTs.data.filter (fun c => c ≠ '.') = linkTimestampDigits link

instance (messageTs link : String) : Decidable (addTsMatches messageTs link) := by
  unfold addTsMatches; infer_instance

/-- Python `f"{ts[:10]}.{ts[10:]}"` (handlers.py:274). -/
def insertDotAfterTen (l : List Char) : List Char :=
  l.take 10 ++ '.' :: l.drop 10

/-- The remove-path check (handlers.py:277): the event timestamp must equal
the link's digit string with a `'.'` re-inserted after the tenth digit. -/
def removeTsMatches (messageTs link : String) : Prop :=
  messageTs.data = insertDotAfterTen (linkTimestampDigits link)

instance (messageTs link : String) : Decidable (removeTsMatches messageTs link) := by
  unfold removeTsMatches; infer_instance

/-! ## Store operations (`database/database.py`) -/

/-- `fetch_songs(song_id=...)` for a specific id: the first `songs` row with
that id (the id is a PRIMARY KEY, so at most one exists in reachable
states).  The GROUP_CONCAT of artist names in the returned dict is modelled
separately by `artistNamesOf`. -/
def fetch_songs (db : DB) (song_id : String) : Option Song :=
  db.songs.find? (fun s => s.id = song_id)

/-- `fetch_reaction(song_id, user)`: the `reaction` value of the first
matching `reactions` row, or `None`. -/
def fetch_reaction (db : DB) (song_id user : String) : Option Nat :=
  (db.reactions.find? (fun r => r.song_id = song_id ∧ r.user = user)).map
    (fun r => r.reaction)

/-- `insert_reaction(song_id, user, reaction)`: appends a row. -/
def insert_reaction (db : DB) (song_id user : String) (reaction : Nat) : DB :=
  { db with reactions := db.reactions ++ [⟨song_id, user, reaction⟩] }

/-- `remove_reaction(song_id, user)`: `DELETE FROM reactions WHERE
song_id = ? AND user = ?`. -/
def remove_reaction (db : DB) (song_id user : String) : DB :=
  { db with
    reactions := db.reactions.filter
      (fun r => ¬(r.song_id = song_id ∧ r.user = user)) }

/-- `update_song_message_link(song_id, message_link)`: `UPDATE songs SET
message_link = ? WHERE id = ?` — an unconditional overwrite of every
matching row. -/
def update_song_message_link (db : DB) (song_id message_link : String) : DB :=
  { db with
    songs := db.songs.map (fun s =>
      if s.id = song_id then { s with message_link := some message_link }
      else s) }

/-- `INSERT OR IGNORE INTO song_artists (song_id, artist_id)`. -/
def addSongArtist (db : DB) (song_id artist_id : String) : DB :=
  if db.song_artists.any (fun p => p.song_id = song_id ∧ p.artist_id = artist_id)
  then db
  else { db with song_artists := db.song_artists ++ [⟨song_id, artist_id⟩] }

/-- The artist loop of `insert_song_with_artists` (database.py:143–173).
For each incoming artist: if the id exists, only the join row is (OR IGNORE)
inserted; otherwise `INSERT INTO artists` runs, which raises an
IntegrityError when the UNIQUE name constraint is violated — modelled as
`none` (the caller rolls the transaction back and re-raises). -/
def insertArtistsLoop (db : DB) (song_id : String) :
    List (String × String) → Option DB
  | [] => some db
  | (aid, aname) :: rest =>
    match db.artists.find? (fun a => a.id = aid) with
    | some _ => insertArtistsLoop (addSongArtist db song_id aid) song_id rest
    | none =>
      if db.artists.any (fun a => a.name = aname) then none
      else
        insertArtistsLoop
          (addSongArtist
            { db with artists := db.artists ++ [⟨aid, aname⟩] } song_id aid)
          song_id rest

/-- `insert_song_with_artists`: `INSERT OR IGNORE INTO songs` followed by
the artist loop.  `none` models the raised (and rolled-back) store error;
the rollback restores the caller-visible state to the argument `db`. -/
def insert_song_with_artists (db : DB) (song_id title album : String)
    (artists : List (String × String)) (user : String)
    (message_link : Option String) : Option DB :=
  let db1 :=
    if db.songs.any (fun s => s.id = song_id) then db
    else { db with songs := db.songs ++ [⟨song_id, title, album, user, message_link⟩] }
  insertArtistsLoop db1 song_id artists

/-! ## Event handlers (`slack_bot/handlers.py`)

The Slack boundary is modelled by parameters: `trackId` is the result of
`extract_spotify_track_id` on the message fetched from
`conversations_history` (also `none` for the handler's earlier returns on a
malformed item or an empty history), and `permalink` is the result of
`chat_getPermalink` (`none` when the call failed or returned no permalink).
Each handler returns its outcome together with the database state after the
call; outcomes name the handler's return points in source order. -/

/-- Return points of `handle_reaction_added` (handlers.py:105–209). -/
inductive AddOutcome where
  | ignoredSymbol
  | noTrackId
  | unknownTrack
  | noCanonicalMessage
  | wrongMessage
  | duplicateRating
  | notARating
  | inserted (value : Nat)
deriving DecidableEq

/-- `handle_reaction_added`: whitelist, track lookup, canonical-link
truthiness, add-path timestamp check, duplicate check, decode, insert —
in source order. -/
def handleReactionAdded (db : DB) (reaction user messageTs : String)
    (trackId : Option String) : AddOutcome × DB :=
  if reaction ∉ emojiWhitelist then (.ignoredSymbol, db)
  else
    match trackId with
    | none => (.noTrackId, db)
    | some tid =>
      match fetch_songs db tid with
      | none => (.unknownTrack, db)
      | some song =>
        if !isTruthy song.message_link then (.noCanonicalMessage, db)
        else
          let link := song.message_link.getD ""
          if ¬addTsMatches messageTs link then (.wrongMessage, db)
          else
            match fetch_reaction db tid user with
            | some _ => (.duplicateRating, db)
            | none =>
              let numeric_value := convert_emoji_to_number reaction
              if ¬numeric_value > 0 then (.notARating, db)
              else (.inserted numeric_value,
                    insert_reaction db tid user numeric_value)

/-- Return points of `handle_reaction_removed` (handlers.py:212–320). -/
inductive RemoveOutcome where
  | ignoredSymbol
  | noTrackId
  | unknownTrack
  | noCanonicalMessage
  | wrongMessage
  | notARating
  | noExistingReaction
  | reactionMismatch
  | removed (value : Nat)
deriving DecidableEq

/-- `handle_reaction_removed`: whitelist, track lookup, canonical-link
truthiness, remove-path timestamp check, decode, stored-reaction lookup,
value match, delete — in source order (decode precedes the lookup here,
unlike the add path). -/
def handleReactionRemoved (db : DB) (reaction user messageTs : String)
    (trackId : Option String) : RemoveOutcome × DB :=
  if reaction ∉ emojiWhitelist then (.ignoredSymbol, db)
  else
    match trackId with
    | none => (.noTrackId, db)
    | some tid =>
      match fetch_songs db tid with
      | none => (.unknownTrack, db)
      | some song =>
        if !isTruthy song.message_link then (.noCanonicalMessage, db)
        else
          let link := song.message_link.getD ""
          if ¬removeTsMatches messageTs link then (.wrongMessage, db)
          else
            let numeric_value := convert_emoji_to_number reaction
            if ¬numeric_value > 0 then (.notARating, db)
            else
              match fetch_reaction db tid user with
              | none => (.noExistingReaction, db)
              | some existing =>
                if existing ≠ numeric_value then (.reactionMismatch, db)
                else (.removed numeric_value, remove_reaction db tid user)

/-- Track metadata returned by `fetch_track_details` (spotify/api.py):
id, name, album and the artist list (id, name pairs). -/
structure TrackDetails where
  id : String
  name : String
  album : String
  artists : List (String × String)
deriving DecidableEq

/-- The user-visible replies `handle_spotify_track_message` can post. -/
inductive Reply where
  | alreadyExists
  | saved
deriving DecidableEq

/-- `handle_spotify_track_message` (handlers.py:32–98), after a successful
id extraction and metadata fetch.  The existing-track branch posts the
"already exists" reply but does NOT return: control falls through to
`insert_song_with_artists` and the "saved" reply.  The result is the final
database state, the replies posted in order, and whether a store error was
raised (in which case later replies are not posted and the failed insert
transaction is rolled back — but not the already-committed link backfill). -/
def handleSpotifyTrackMessage (db : DB) (details : TrackDetails)
    (user : String) (permalink : Option String) : DB × List Reply × Bool :=
  match fetch_songs db details.id with
  | some song =>
    let db1 :=
      if !isTruthy song.message_link && isTruthy permalink then
        update_song_message_link db details.id (permalink.getD "")
      else db
    match insert_song_with_artists db1 details.id details.name details.album
        details.artists user permalink with
    | some db2 => (db2, [.alreadyExists, .saved], false)
    | none => (db1, [.alreadyExists], true)
  | none =>
    match insert_song_with_artists db details.id details.name details.album
        details.artists user permalink with
    | some db2 => (db2, [.saved], false)
    | none => (db, [], true)

/-- The engine operations quantified over by the canonical-link invariant:
track submission (which includes the one-time backfill) and reaction
add/remove. -/
inductive Op where
  | submit (details : TrackDetails) (user : String) (permalink : Option String)
  | reactAdd (reaction user messageTs : String) (trackId : Option String)
  | reactRemove (reaction user messageTs : String) (trackId : Option String)

/-- The database state after one engine operation. -/
def applyOp (db : DB) : Op → DB
  | .submit details user permalink =>
    (handleSpotifyTrackMessage db details user permalink).1
  | .reactAdd reaction user messageTs trackId =>
    (handleReactionAdded db reaction user messageTs trackId).2
  | .reactRemove reaction user messageTs trackId =>
    (handleReactionRemoved db reaction user messageTs trackId).2

/-! ## Aggregation queries (`database.py`: `get_top_songs`, `get_unrated_songs`) -/

/-- The reaction values recorded for a song, in insertion order
(`reactions WHERE song_id = ?`). -/
def songReactionValues (db : DB) (song_id : String) : List Nat :=
  (db.reactions.filter (fun r => r.song_id = song_id)).map (fun r => r.reaction)

/-- The artist names joined to a song, in `song_artists` ROWID order
(the correlated subquery of `get_top_songs`; `JOIN artists` drops join rows
whose artist id has no `artists` row). -/
def artistNamesOf (db : DB) (song_id : String) : List String :=
  (db.song_artists.filter (fun p => p.song_id = song_id)).filterMap
    (fun p => (db.artists.find? (fun a => a.id = p.artist_id)).map (fun a => a.name))

/-- `COALESCE(AVG(r.reaction), 0)` of the `get_top_songs` query.  The query
averages over the LEFT-JOIN cross product of reactions and artist rows; the
artist join duplicates every reaction value uniformly, which leaves the
average unchanged, so it equals the plain mean of the song's reactions
(0 when there are none — the NULL AVG coalesced). -/
def averageReaction (db : DB) (song_id : String) : ℚ :=
  let vs := songReactionValues db song_id
  if vs.length = 0 then 0
  else ((vs.foldl (fun acc v => acc + v) 0 : Nat) : ℚ) / (vs.length : ℚ)

/-- A result row of `get_top_songs` (artists kept as the name list rather
than the comma-joined display string). -/
structure TopSongEntry where
  id : String
  title : String
  album : String
  reaction_count : Nat
  average_reaction : ℚ
  artists : List String
deriving DecidableEq

/-- The `get_top_songs` output row for a song: `COUNT(DISTINCT r.id)` is the
number of reaction rows. -/
def toTopEntry (db : DB) (s : Song) : TopSongEntry :=
  { id := s.id
    title := s.title
    album := s.album
    reaction_count := (songReactionValues db s.id).length
    average_reaction := averageReaction db s.id
    artists := artistNamesOf db s.id }

/-- `a` must be strictly ahead of `b` under
`ORDER BY average_reaction DESC, reaction_count DESC`. -/
def rankBefore (a b : TopSongEntry) : Prop :=
  b.average_reaction < a.average_reaction ∨
    (a.average_reaction = b.average_reaction ∧ b.reaction_count < a.reaction_count)

instance (a b : TopSongEntry) : Decidable (rankBefore a b) := by
  unfold rankBefore; infer_instance

/-- `a` may precede `b` in the sorted output: `a`'s sort key is no worse. -/
def rankGE (a b : TopSongEntry) : Prop := ¬rankBefore b a

/-- Insert an entry behind every already-placed entry whose key is at least
as good (stable insertion for `ORDER BY ... DESC, ... DESC`). -/
def insertRanked (x : TopSongEntry) : List TopSongEntry → List TopSongEntry
  | [] => [x]
  | y :: ys => if rankBefore x y then x :: y :: ys else y :: insertRanked x ys

/-- Stable sort by `(average_reaction DESC, reaction_count DESC)`,
processing rows in the order the grouped query produces them. -/
def rankSort (l : List TopSongEntry) : List TopSongEntry :=
  l.foldl (fun acc x => insertRanked x acc) []

/-- `get_top_songs(limit)`: group by song, keep the groups with
`COUNT(a.id) > 0` (at least one joined artist row), order by
(average DESC, count DESC), and `LIMIT ?`. -/
def get_top_songs (db : DB) (limit : Nat) : List TopSongEntry :=
  let eligible := db.songs.filter (fun s => artistNamesOf db s.id ≠ [])
  (rankSort (eligible.map (toTopEntry db))).take limit

/-- A result row of `get_unrated_songs`. -/
structure UnratedEntry where
  id : String
  title : String
  album : String
  artists : List String
  message_link : Option String
deriving DecidableEq

/-- `get_unrated_songs(user_id)`: songs whose id is NOT IN the user's rated
song ids and whose submitter differs from the user. -/
def get_unrated_songs (db : DB) (user_id : String) : List UnratedEntry :=
  (db.songs.filter (fun s =>
      s.id ∉ (db.reactions.filter (fun r => r.user = user_id)).map
        (fun r => r.song_id) ∧
      s.user ≠ user_id)).map
    (fun s => ⟨s.id, s.title, s.album, artistNamesOf db s.id, s.message_link⟩)

/-! ## Template formatting (`utils.format_stats_message`)

`format_stats_message` calls CPython's `template.format(**data)` and catches
only `KeyError`.  `pyFormat` models `str.format`: literal text, `{{`/`}}`
escapes, and replacement fields.  A PLAIN field — a field text containing
none of `.` `[` `!` `:` `{`, i.e. no attribute/index access, no conversion,
no format spec, no nested braces — is handled concretely: an empty or
all-digit name is positional (`IndexError`, as only keyword arguments are
supplied), otherwise the name is looked up in the data (`KeyError` when
absent).  A field with any of that syntax is rendered by CPython's field
machinery, whose outcome depends on the value's type, the format-spec
mini-language and (for attribute accesses) object identity; the model takes
that machinery as an explicit parameter instead of committing to it.  An
unmatched brace raises `ValueError`. -/

/-- The error classes a formatting call can raise in this model.
`keyError` is the one `format_stats_message` catches; `attributeError` and
`typeError` can only come out of the delegated field machinery. -/
inductive PyFormatError where
  | keyError
  | indexError
  | valueError
  | attributeError
  | typeError
deriving DecidableEq

/-- Keyword-argument lookup (`**data`). -/
def lookupData (data : List (String × String)) (key : String) : Option String :=
  (data.find? (fun p => p.1 = key)).map (fun p => p.2)

/-- The characters that end the argument name of a replacement field and
start attribute access, index access, conversion or format-spec syntax
(plus the opening brace of a nested field). -/
def fieldSyntaxChars : List Char := ['.', '[', '!', ':', '{']

/-- CPython's rendering of one non-plain replacement field: given the
keyword data and the full field text (name, accesses, conversion and spec),
produce the rendered text or the raised error.  This is `str.format`'s
unmodelled machinery — e.g. a nested-spec lookup failure is a `KeyError`, a
bad spec for the value's type a `ValueError` — supplied as a parameter. -/
def FieldMachinery : Type :=
  List (String × String) → List Char → Except PyFormatError (List Char)

/-- Find the end of a replacement field the way CPython does: scan for the
matching `'}'`, counting nested braces (a format spec may itself contain
replacement fields).  `acc` accumulates the field text in reverse. -/
def splitFieldGo (depth : Nat) (acc : List Char) :
    List Char → Option (List Char × List Char)
  | [] => none
  | c :: rest =>
    if c = '}' then
      if depth = 0 then some (acc.reverse, rest)
      else splitFieldGo (depth - 1) (c :: acc) rest
    else if c = '{' then splitFieldGo (depth + 1) (c :: acc) rest
    else splitFieldGo depth (c :: acc) rest

/-- Split `field}rest` into the field text and the remainder after the
matching closing brace; `none` when the field is unterminated
(`ValueError`). -/
def splitField (l : List Char) : Option (List Char × List Char) :=
  splitFieldGo 0 [] l

theorem splitFieldGo_length :
    ∀ (l : List Char) (depth : Nat) (acc field rest : List Char),
      splitFieldGo depth acc l = some (field, rest) → rest.length < l.length := by
  intro l
  induction l with
  | nil =>
    intro depth acc field rest h
    exact absurd h (by simp [splitFieldGo])
  | cons c cs ih =>
    intro depth acc field rest h
    simp only [splitFieldGo] at h
    split_ifs at h
    · simp only [Option.some.injEq, Prod.mk.injEq] at h
      obtain ⟨-, h2⟩ := h
      subst h2
      simp only [List.length_cons]
      omega
    · exact Nat.lt_succ_of_lt (ih _ _ _ _ h)
    · exact Nat.lt_succ_of_lt (ih _ _ _ _ h)
    · exact Nat.lt_succ_of_lt (ih _ _ _ _ h)

theorem splitField_length {l field rest : List Char}
    (h : splitField l = some (field, rest)) : rest.length < l.length :=
  splitFieldGo_length l 0 [] field rest h

/-- CPython `template.format(**data)`, parametrized by the field machinery
for non-plain fields (see the section comment).  Plain fields are handled
concretely; the positional check and the keyword lookup happen before any
machinery runs, exactly as in CPython. -/
def pyFormat (machinery : FieldMachinery) (data : List (String × String)) :
    List Char → Except PyFormatError (List Char)
  | [] => .ok []
  | c :: rest =>
    if c = '{' then
      if rest.head? = some '{' then
        (pyFormat machinery data rest.tail).map (fun t => '{' :: t)
      else
        match h : splitField rest with
        | none => .error .valueError
        | some (field, rest') =>
          if field.any (fun ch => ch ∈ fieldSyntaxChars) then
            match machinery data field with
            | .error e => .error e
            | .ok rendered =>
              (pyFormat machinery data rest').map (fun t => rendered ++ t)
          else if field.all Char.isDigit then .error .indexError
          else
            match lookupData data (String.mk field) with
            | none => .error .keyError
            | some v =>
              (pyFormat machinery data rest').map (fun t => v.data ++ t)
    else if c = '}' then
      if rest.head? = some '}' then
        (pyFormat machinery data rest.tail).map (fun t => '}' :: t)
      else .error .valueError
    else (pyFormat machinery data rest).map (fun t => c :: t)
termination_by l => l.length
decreasing_by
  all_goals simp only [List.length_cons, List.length_tail]
  all_goals try omega
  all_goals exact Nat.lt_succ_of_lt (splitField_length h)

/-- The placeholder keys of a template, defined exactly when every
replacement field is PLAIN (a nonempty, not-all-digit name with no
attribute/index/conversion/spec/nested-brace syntax); `none` on a
malformed, positional or non-plain template — so the rendering of a
template accepted here never consults the field machinery. -/
def templateKeys : List Char → Option (List String)
  | [] => some []
  | c :: rest =>
    if c = '{' then
      if rest.head? = some '{' then templateKeys rest.tail
      else
        match h : splitField rest with
        | none => none
        | some (field, rest') =>
          if field.any (fun ch => ch ∈ fieldSyntaxChars) then none
          else if field.all Char.isDigit then none
          else (templateKeys rest').map (fun ks => String.mk field :: ks)
    else if c = '}' then
      if rest.head? = some '}' then templateKeys rest.tail
      else none
    else templateKeys rest
termination_by l => l.length
decreasing_by
  all_goals simp only [List.length_cons, List.length_tail]
  all_goals try omega
  exact Nat.lt_succ_of_lt (splitField_length h)

/-- `format_stats_message` (utils.py:436–451): `template.format(**data)`
with only `KeyError` caught and turned into the fixed literal string; any
other formatting error propagates to the caller.  Parametric in the field
machinery like `pyFormat`. -/
def format_stats_message (machinery : FieldMachinery) (template : String)
    (data : List (String × String)) : Except PyFormatError String :=
  match pyFormat machinery data template.data with
  | .ok out => .ok (String.mk out)
  | .error .keyError => .ok "Error formatting message. Missing data."
  | .error e => .error e

/-- A trivial field-machinery instantiation used to state closed facts
about templates on which the machinery is never consulted (templates with
no field, or with plain fields only). -/
def noFieldMachinery : FieldMachinery := fun _ _ =>
  Except.error PyFormatError.valueError

/-! ## Concrete example data for witnesses and counterexamples -/

/-- A canonical Slack message link: marker `p` followed by the 16-digit
microseconds timestamp as the last path segment. -/
def exLink : String :=
  "https://myworkspace.slack.com/archives/C0001/p1234567890123456"

/-- The matching event timestamp in seconds-dot-microseconds form. -/
def exTs : String := "1234567890.123456"

/-- An event timestamp of a different message. -/
def exBadTs : String := "1234567899.000001"

/-- The stored track of the running example, with a canonical link. -/
def exSong1 : Song := ⟨"trk1", "Song One", "Alb1", "U_owner", some exLink⟩

/-- Example store: one track with one artist and one stored reaction
(value 7 by `U_rater`). -/
def exDB : DB :=
  ⟨[exSong1], [⟨"A1", "Artist One"⟩], [⟨"trk1", "A1"⟩],
   [⟨"trk1", "U_rater", 7⟩]⟩

/-- Incoming metadata for the already-stored track `trk1`. -/
def exDetails : TrackDetails := ⟨"trk1", "Song One", "Alb1", [("A1", "Artist One")]⟩

/-- Incoming metadata for a fresh track with no artists. -/
def exDetailsFresh : TrackDetails := ⟨"trkE", "Fresh", "AlbE", []⟩

/-- Store for the leaderboard example: track A (3 reactions of 9), track B
(5 reactions of 9), track C (1 reaction of 4, no artists). -/
def topExampleDB : DB :=
  ⟨[⟨"A", "Song A", "AlbA", "U1", none⟩,
    ⟨"B", "Song B", "AlbB", "U2", none⟩,
    ⟨"C", "Song C", "AlbC", "U3", none⟩],
   [⟨"AA", "Artist A"⟩, ⟨"AB", "Artist B"⟩],
   [⟨"A", "AA"⟩, ⟨"B", "AB"⟩],
   [⟨"A", "u1", 9⟩, ⟨"A", "u2", 9⟩, ⟨"A", "u3", 9⟩,
    ⟨"B", "v1", 9⟩, ⟨"B", "v2", 9⟩, ⟨"B", "v3", 9⟩, ⟨"B", "v4", 9⟩, ⟨"B", "v5", 9⟩,
    ⟨"C", "w1", 4⟩]⟩

/-! ## C6 — the reaction codec -/

/-- C6 counterexample: the claim's eleven-symbol vocabulary includes
`"ten"` (the name of the number ten), which it says decodes to 10; but the
dictionary in `convert_emoji_to_number` has no `"ten"` key, so `"ten"`
decodes to the not-a-rating value 0. -/
theorem C6_counterexample :
    convert_emoji_to_number "ten" = 0 ∧ convert_emoji_to_number "ten" ≠ 10 := by
  decide

/-- C6 (amended): `convert_emoji_to_number` maps each symbol of its closed
TEN-symbol vocabulary — the names of the numbers one through nine plus the
keycap-ten alias — to the corresponding integer in 1–10, and every string
outside that vocabulary (including `"ten"`) to 0; it is a total function
and never raises. -/
theorem C6_codec :
    (convert_emoji_to_number "one" = 1 ∧ convert_emoji_to_number "two" = 2 ∧
     convert_emoji_to_number "three" = 3 ∧ convert_emoji_to_number "four" = 4 ∧
     convert_emoji_to_number "five" = 5 ∧ convert_emoji_to_number "six" = 6 ∧
     convert_emoji_to_number "seven" = 7 ∧ convert_emoji_to_number "eight" = 8 ∧
     convert_emoji_to_number "nine" = 9 ∧ convert_emoji_to_number "keycap_ten" = 10) ∧
    ∀ s : String, s ∉ codecVocabulary → convert_emoji_to_number s = 0 := by
  refine ⟨by decide, ?_⟩
  intro s hs
  simp only [codecVocabulary, List.mem_cons, List.not_mem_nil, or_false,
    not_or] at hs
  obtain ⟨h1, h2, h3, h4, h5, h6, h7, h8, h9, h10⟩ := hs
  simp [convert_emoji_to_number, h1, h2, h3, h4, h5, h6, h7, h8, h9, h10]

/-- C6 witness: the amended default case evaluated at `"ten"`. -/
theorem C6_witness : convert_emoji_to_number "ten" = 0 :=
  C6_codec.2 "ten" (by decide)

/-! ## C10 — `"zero"` reactions never touch the reactions table -/

theorem handleReactionAdded_zero_frame (db : DB) (user messageTs : String)
    (trackId : Option String) :
    (handleReactionAdded db "zero" user messageTs trackId).2 = db ∧
    ∀ v, (handleReactionAdded db "zero" user messageTs trackId).1 ≠
      AddOutcome.inserted v := by
  have hz : convert_emoji_to_number "zero" = 0 := by decide
  unfold handleReactionAdded
  repeat' split
  all_goals try simp_all [hz]
  all_goals refine ⟨by split_ifs <;> rfl, ?_⟩
  all_goals intro v
  all_goals split_ifs <;> simp

theorem handleReactionRemoved_zero_frame (db : DB) (user messageTs : String)
    (trackId : Option String) :
    (handleReactionRemoved db "zero" user messageTs trackId).2 = db ∧
    ∀ v, (handleReactionRemoved db "zero" user messageTs trackId).1 ≠
      RemoveOutcome.removed v := by
  have hz : convert_emoji_to_number "zero" = 0 := by decide
  unfold handleReactionRemoved
  repeat' split
  all_goals try simp_all [hz]
  all_goals refine ⟨by split_ifs <;> rfl, ?_⟩
  all_goals intro v
  all_goals split_ifs <;> simp

/-- C10: `"zero"` passes the handlers' explicit whitelist but decodes to 0,
so both reaction handlers return before `insert_reaction` /
`remove_reaction`: for every database, user, timestamp and track id, a
`"zero"` event leaves the state unchanged and never reaches the
insert/remove return points. -/
theorem C10_zero_reaction_frame :
    ("zero" ∈ emojiWhitelist ∧ convert_emoji_to_number "zero" = 0) ∧
    ∀ (db : DB) (user messageTs : String) (trackId : Option String),
      (handleReactionAdded db "zero" user messageTs trackId).2 = db ∧
      (∀ v, (handleReactionAdded db "zero" user messageTs trackId).1 ≠
        AddOutcome.inserted v) ∧
      (handleReactionRemoved db "zero" user messageTs trackId).2 = db ∧
      ∀ v, (handleReactionRemoved db "zero" user messageTs trackId).1 ≠
        RemoveOutcome.removed v := by
  refine ⟨⟨by decide, by decide⟩, ?_⟩
  intro db user messageTs trackId
  obtain ⟨ha1, ha2⟩ := handleReactionAdded_zero_frame db user messageTs trackId
  obtain ⟨hr1, hr2⟩ := handleReactionRemoved_zero_frame db user messageTs trackId
  exact ⟨ha1, ha2, hr1, hr2⟩

/-! ## C2 — precondition order in the add path -/

/-- C2 counterexample: an add event whose symbol (`"zero"`) decodes to 0 and
whose (track, user) pair already has a stored reaction.  The claim says the
outcome is NotARating; `handle_reaction_added` checks the duplicate before
decoding, so the outcome is DuplicateRating. -/
theorem C2_counterexample :
    (handleReactionAdded exDB "zero" "U_rater" exTs (some "trk1")).1 =
      AddOutcome.duplicateRating ∧
    (handleReactionAdded exDB "zero" "U_rater" exTs (some "trk1")).1 ≠
      AddOutcome.notARating := by
  decide

/-- C2 (amended): in the add path the duplicate-rating check PRECEDES the
decode check; for every add event that passes the whitelist, resolves to a
stored track with a canonical link and a matching timestamp, whose symbol
decodes to 0, and whose (track, user) pair already has a stored reaction,
the outcome is DuplicateRating (with no state mutation), not NotARating. -/
theorem C2_duplicate_before_decode (db : DB)
    (reaction user messageTs tid : String) (song : Song) (l : String) (v : Nat)
    (hw : reaction ∈ emojiWhitelist)
    (hdec : convert_emoji_to_number reaction = 0)
    (hsong : fetch_songs db tid = some song)
    (hlink : song.message_link = some l) (hne : l ≠ "")
    (hts : addTsMatches messageTs l)
    (hdup : fetch_reaction db tid user = some v) :
    handleReactionAdded db reaction user messageTs (some tid) =
      (AddOutcome.duplicateRating, db) := by
  have hempty : l.isEmpty = false := by
    cases h : l.isEmpty
    · rfl
    · exact absurd ((String.isEmpty_iff l).mp h) hne
  have htruthy : isTruthy song.message_link = true := by
    rw [hlink]; simp [isTruthy, hempty]
  have hgetD : song.message_link.getD "" = l := by rw [hlink]; rfl
  simp [handleReactionAdded, hw, hsong, htruthy, hgetD, hts, hdup]

/-- C2 witness: the amended theorem applied to the example store at the
`"zero"` event of the counterexample. -/
theorem C2_witness :
    handleReactionAdded exDB "zero" "U_rater" exTs (some "trk1") =
      (AddOutcome.duplicateRating, exDB) :=
  C2_duplicate_before_decode exDB "zero" "U_rater" exTs "trk1" exSong1 exLink 7
    (by decide) (by decide) (by decide) (by decide) (by decide) (by decide)
    (by decide)

/-! ## C1 — equivalence of the two timestamp normalizations -/

theorem digit_ne_p {c : Char} (hc : c.isDigit = true) : c ≠ 'p' := by
  intro h; subst h; exact absurd hc (by decide)

theorem digit_ne_dot {c : Char} (hc : c.isDigit = true) : c ≠ '.' := by
  intro h; subst h; exact absurd hc (by decide)

/-- C1: for every canonical message link `L` whose last path segment is
`'p'` followed by the fixed-width (16-digit) microseconds timestamp, and
every event timestamp `T` in seconds-dot-microseconds form (10 digits, a
dot, 6 digits), the add-path check of `handle_reaction_added` accepts
`(T, L)` iff the remove-path check of `handle_reaction_removed` does: the
two independently implemented normalizations agree as predicates. -/
theorem C1_ts_checks_equivalent (L T : String) (d s u : List Char)
    (hseg : (splitChar '/' L.data).getLastD [] = 'p' :: d)
    (hd16 : d.length = 16) (hddig : ∀ c ∈ d, c.isDigit = true)
    (hT : T.data = s ++ '.' :: u)
    (hs10 : s.length = 10) (hu6 : u.length = 6)
    (hsdig : ∀ c ∈ s, c.isDigit = true) (hudig : ∀ c ∈ u, c.isDigit = true) :
    (addTsMatches T L ↔ removeTsMatches T L) := by
  have hstrip : linkTimestampDigits L = d := by
    unfold linkTimestampDigits
    rw [hseg, List.filter_cons_of_neg (by simp)]
    exact List.filter_eq_self.mpr fun c hc => by
      simp [digit_ne_p (hddig c hc)]
  have hfil : T.data.filter (fun c => c ≠ '.') = s ++ u := by
    have h1 : s.filter (fun c => c ≠ '.') = s :=
      List.filter_eq_self.mpr fun c hc => by
        simp [digit_ne_dot (hsdig c hc)]
    have h2 : u.filter (fun c => c ≠ '.') = u :=
      List.filter_eq_self.mpr fun c hc => by
        simp [digit_ne_dot (hudig c hc)]
    rw [hT, List.filter_append, List.filter_cons_of_neg (by simp), h1, h2]
  unfold addTsMatches removeTsMatches insertDotAfterTen
  rw [hstrip, hfil, hT]
  constructor
  · intro h
    rw [← h, List.take_left' hs10, List.drop_left' hs10]
  · intro h
    have hlen : s.length = (d.take 10).length := by
      rw [List.length_take]; omega
    obtain ⟨h1, h2⟩ := List.append_inj h hlen
    injection h2 with _ h2u
    rw [h1, h2u, List.take_append_drop]

/-- C1 witness: both checks evaluated at the example link and the matching
event timestamp. -/
theorem C1_witness : addTsMatches exTs exLink ↔ removeTsMatches exTs exLink :=
  C1_ts_checks_equivalent exLink exTs
    "1234567890123456".data "1234567890".data "123456".data
    (by decide) (by decide) (by decide) (by decide) (by decide) (by decide)
    (by decide) (by decide)

/-! ## C5 — the canonical-message check -/

/-- C5: for a stored track with a canonical link and a whitelisted symbol,
an event whose timestamp normalizes to the link's timestamp passes the
canonical-message check of the respective handler, while any other
timestamp makes the handler return WrongMessage with the store (hence the
reactions table) unchanged — on both the add and the remove path. -/
theorem C5_wrong_message (db : DB) (reaction user messageTs tid : String)
    (song : Song) (l : String)
    (hw : reaction ∈ emojiWhitelist)
    (hsong : fetch_songs db tid = some song)
    (hlink : song.message_link = some l) (hne : l ≠ "") :
    (¬addTsMatches messageTs l →
      handleReactionAdded db reaction user messageTs (some tid) =
        (AddOutcome.wrongMessage, db)) ∧
    (addTsMatches messageTs l →
      (handleReactionAdded db reaction user messageTs (some tid)).1 ≠
        AddOutcome.wrongMessage) ∧
    (¬removeTsMatches messageTs l →
      handleReactionRemoved db reaction user messageTs (some tid) =
        (RemoveOutcome.wrongMessage, db)) ∧
    (removeTsMatches messageTs l →
      (handleReactionRemoved db reaction user messageTs (some tid)).1 ≠
        RemoveOutcome.wrongMessage) := by
  have hempty : l.isEmpty = false := by
    cases h : l.isEmpty
    · rfl
    · exact absurd ((String.isEmpty_iff l).mp h) hne
  have htruthy : isTruthy song.message_link = true := by
    rw [hlink]; simp [isTruthy, hempty]
  have hgetD : song.message_link.getD "" = l := by rw [hlink]; rfl
  refine ⟨?_, ?_, ?_, ?_⟩
  · intro hts
    simp [handleReactionAdded, hw, hsong, htruthy, hgetD, hts]
  · intro hts
    simp [handleReactionAdded, hw, hsong, htruthy, hgetD, hts]
    rcases hfr : fetch_reaction db tid user with _ | v
    · simp [hfr]
      split_ifs <;> simp
    · simp [hfr]
  · intro hts
    simp [handleReactionRemoved, hw, hsong, htruthy, hgetD, hts]
  · intro hts
    simp [handleReactionRemoved, hw, hsong, htruthy, hgetD, hts]
    rcases hfr : fetch_reaction db tid user with _ | v
    · simp [hfr]
      split_ifs <;> simp
    · simp [hfr]
      split_ifs <;> simp

/-- C5 witness: the add path on the example store at a non-canonical
timestamp returns WrongMessage and leaves the store unchanged. -/
theorem C5_witness :
    handleReactionAdded exDB "five" "U_other" exBadTs (some "trk1") =
      (AddOutcome.wrongMessage, exDB) :=
  (C5_wrong_message exDB "five" "U_other" exBadTs "trk1" exSong1 exLink
    (by decide) (by decide) (by decide) (by decide)).1 (by decide)

/-! ## C3 — re-submission of a track that already has a canonical link -/

theorem addSongArtist_songs (db : DB) (sid aid : String) :
    (addSongArtist db sid aid).songs = db.songs := by
  unfold addSongArtist; split <;> rfl

theorem addSongArtist_reactions (db : DB) (sid aid : String) :
    (addSongArtist db sid aid).reactions = db.reactions := by
  unfold addSongArtist; split <;> rfl

theorem insertArtistsLoop_songs {db db' : DB} {sid : String}
    {artists : List (String × String)}
    (h : insertArtistsLoop db sid artists = some db') :
    db'.songs = db.songs := by
  induction artists generalizing db with
  | nil => simp only [insertArtistsLoop, Option.some.injEq] at h; rw [← h]
  | cons a rest ih =>
    rcases a with ⟨aid, aname⟩
    unfold insertArtistsLoop at h
    rcases hfind : db.artists.find? (fun a => a.id = aid) with _ | row
    · rw [hfind] at h
      rcases hname : db.artists.any (fun a => a.name = aname) with _ | _ <;>
        rw [hname] at h
      · simp only [Bool.false_eq_true, if_false, reduceIte] at h
        rw [ih h, addSongArtist_songs]
      · exact absurd h (by simp)
    · rw [hfind] at h
      rw [ih h, addSongArtist_songs]

theorem insertArtistsLoop_reactions {db db' : DB} {sid : String}
    {artists : List (String × String)}
    (h : insertArtistsLoop db sid artists = some db') :
    db'.reactions = db.reactions := by
  induction artists generalizing db with
  | nil => simp only [insertArtistsLoop, Option.some.injEq] at h; rw [← h]
  | cons a rest ih =>
    rcases a with ⟨aid, aname⟩
    unfold insertArtistsLoop at h
    rcases hfind : db.artists.find? (fun a => a.id = aid) with _ | row
    · rw [hfind] at h
      rcases hname : db.artists.any (fun a => a.name = aname) with _ | _ <;>
        rw [hname] at h
      · simp only [Bool.false_eq_true, if_false, reduceIte] at h
        rw [ih h, addSongArtist_reactions]
      · exact absurd h (by simp)
    · rw [hfind] at h
      rw [ih h, addSongArtist_reactions]

/-- C3 counterexample: re-submitting `trk1`, which is stored with a
non-null canonical link, posts the "already exists" reply and then ALSO
runs the insert path and posts the "saved" reply — the claim says the
handler replies "already exists" instead of "saved". -/
theorem C3_counterexample :
    (handleSpotifyTrackMessage exDB exDetails "U_other"
        (some "https://myworkspace.slack.com/archives/C0001/p9999999999999999")).2.1 =
      [Reply.alreadyExists, Reply.saved] ∧
    Reply.saved ∈ (handleSpotifyTrackMessage exDB exDetails "U_other"
        (some "https://myworkspace.slack.com/archives/C0001/p9999999999999999")).2.1 := by
  decide

/-- C3 (amended): for every incoming track message whose track id is
already stored with a non-null, nonempty canonical link, the handler posts
the "already exists" reply but does NOT return: it still runs the insert
path, which leaves the songs and reactions tables unchanged (the song
insert is OR IGNORE and the backfill guard skips a truthy link, though
previously-unseen artists are still inserted), and — when the insert does
not raise — it additionally posts the "saved" reply. -/
theorem C3_already_exists_falls_through (db : DB) (details : TrackDetails)
    (user : String) (permalink : Option String) (song : Song) (l : String)
    (hsong : fetch_songs db details.id = some song)
    (hlink : song.message_link = some l) (hne : l ≠ "") :
    (handleSpotifyTrackMessage db details user permalink).1.songs = db.songs ∧
    (handleSpotifyTrackMessage db details user permalink).1.reactions =
      db.reactions ∧
    Reply.alreadyExists ∈ (handleSpotifyTrackMessage db details user permalink).2.1 ∧
    ((handleSpotifyTrackMessage db details user permalink).2.2 = false →
      (handleSpotifyTrackMessage db details user permalink).2.1 =
        [Reply.alreadyExists, Reply.saved]) := by
  have hempty : l.isEmpty = false := by
    cases h : l.isEmpty
    · rfl
    · exact absurd ((String.isEmpty_iff l).mp h) hne
  have htruthy : isTruthy song.message_link = true := by
    rw [hlink]; simp [isTruthy, hempty]
  have hsong' : db.songs.find? (fun s => s.id = details.id) = some song := hsong
  have hany : db.songs.any (fun s => s.id = details.id) = true := by
    rw [List.any_eq_true]
    have hp := List.find?_some hsong'
    exact ⟨song, List.mem_of_find?_eq_some hsong', hp⟩
  unfold handleSpotifyTrackMessage
  rw [hsong]
  simp only [htruthy, Bool.not_true, Bool.false_and, Bool.false_eq_true,
    if_false, reduceIte]
  unfold insert_song_with_artists
  rw [hany]
  simp only [reduceIte]
  rcases hloop : insertArtistsLoop db details.id details.artists with _ | db2
  · simp
  · simp [insertArtistsLoop_songs hloop, insertArtistsLoop_reactions hloop]

/-- C3 witness: the amended theorem evaluated at the counterexample's
re-submission. -/
theorem C3_witness :
    (handleSpotifyTrackMessage exDB exDetails "U_other"
        (some "https://myworkspace.slack.com/archives/C0001/p9999999999999999")).1.songs =
      exDB.songs :=
  (C3_already_exists_falls_through exDB exDetails "U_other"
    (some "https://myworkspace.slack.com/archives/C0001/p9999999999999999")
    exSong1 exLink (by decide) (by decide) (by decide)).1

/-! ## C4 — immutability of a set canonical link -/

theorem handleReactionAdded_songs (db : DB) (r u ts : String)
    (t : Option String) : (handleReactionAdded db r u ts t).2.songs = db.songs := by
  unfold handleReactionAdded
  repeat' split
  all_goals try simp [insert_reaction]
  all_goals split_ifs <;> simp [insert_reaction]

theorem handleReactionRemoved_songs (db : DB) (r u ts : String)
    (t : Option String) :
    (handleReactionRemoved db r u ts t).2.songs = db.songs := by
  unfold handleReactionRemoved
  repeat' split
  all_goals try simp [remove_reaction]
  all_goals split_ifs <;> simp [remove_reaction]

theorem fetch_songs_update_of_ne (db : DB) (sid x tid : String)
    (h : sid ≠ tid) :
    fetch_songs (update_song_message_link db sid x) tid = fetch_songs db tid := by
  unfold fetch_songs update_song_message_link
  have H : ∀ L : List Song,
      (L.map (fun s => if s.id = sid then { s with message_link := some x }
        else s)).find? (fun s => s.id = tid) = L.find? (fun s => s.id = tid) := by
    intro L
    induction L with
    | nil => rfl
    | cons a rest ih =>
      have h' : tid ≠ sid := Ne.symm h
      by_cases hsa : a.id = sid
      · have ha : ¬a.id = tid := by rw [hsa]; exact h
        simp [List.find?_cons, hsa, ha, ih, h, h']
      · by_cases ha : a.id = tid <;> simp [List.find?_cons, hsa, ha, ih, h, h']
  exact H db.songs

theorem update_songs_any (db : DB) (sid x i : String) :
    (update_song_message_link db sid x).songs.any (fun s => s.id = i) =
      db.songs.any (fun s => s.id = i) := by
  unfold update_song_message_link
  rw [List.any_map]
  congr 1
  funext s
  by_cases hs : s.id = sid <;> simp [hs, Function.comp]

/-- The submit path preserves the stored row of any track `tid` whose
canonical link is truthy whenever the submission targets `tid` itself. -/
theorem fetch_songs_submit (db : DB) (details : TrackDetails)
    (user : String) (permalink : Option String) (tid : String) (song : Song)
    (hfind : fetch_songs db tid = some song)
    (hguard : details.id = tid → isTruthy song.message_link = true) :
    fetch_songs (handleSpotifyTrackMessage db details user permalink).1 tid =
      some song := by
  unfold handleSpotifyTrackMessage
  rcases hfd : fetch_songs db details.id with _ | song0
  · -- the track is new: its id cannot be tid
    have hneid : details.id ≠ tid := by
      intro hh; rw [hh, hfind] at hfd; exact absurd hfd (by simp)
    have hany : db.songs.any (fun s => s.id = details.id) = false := by
      rw [List.any_eq_false]
      intro a ha
      have := List.find?_eq_none.mp hfd a ha
      simpa using this
    unfold insert_song_with_artists
    rw [hany]
    simp only [Bool.false_eq_true, if_false, reduceIte]
    rcases hloop : insertArtistsLoop
        { db with songs := db.songs ++
          [⟨details.id, details.name, details.album, user, permalink⟩] }
        details.id details.artists with _ | db2
    · simpa using hfind
    · have hs2 := insertArtistsLoop_songs hloop
      simp only []
      unfold fetch_songs at hfind ⊢
      rw [hs2]
      simp [List.find?_append, hfind]
  · -- the track exists already
    cases hg : (!isTruthy song0.message_link && isTruthy permalink) with
    | false =>
      simp only [hg, Bool.false_eq_true, if_false, reduceIte]
      have hany : db.songs.any (fun s => s.id = details.id) = true := by
        rw [List.any_eq_true]
        have hfd' : db.songs.find? (fun s => s.id = details.id) = some song0 := hfd
        have hp := List.find?_some hfd'
        exact ⟨song0, List.mem_of_find?_eq_some hfd', hp⟩
      unfold insert_song_with_artists
      rw [hany]
      simp only [reduceIte]
      rcases hloop : insertArtistsLoop db details.id details.artists with _ | db2
      · simpa using hfind
      · have hs2 := insertArtistsLoop_songs hloop
        simp only []
        unfold fetch_songs at hfind ⊢
        rw [hs2]
        exact hfind
    | true =>
      -- the backfill runs, so the existing link is not truthy; the target
      -- track's link is truthy, so the submission is for a different id
      have hneid : details.id ≠ tid := by
        intro hh
        rw [hh, hfind] at hfd
        injection hfd with hfd'
        rw [← hfd'] at hg
        rw [hguard hh] at hg
        simp at hg
      simp only [hg, reduceIte]
      have hfetch1 : fetch_songs
          (update_song_message_link db details.id (permalink.getD "")) tid =
            some song := by
        rw [fetch_songs_update_of_ne db details.id (permalink.getD "") tid hneid]
        exact hfind
      have hany : (update_song_message_link db details.id
          (permalink.getD "")).songs.any (fun s => s.id = details.id) = true := by
        rw [update_songs_any]
        rw [List.any_eq_true]
        have hfd' : db.songs.find? (fun s => s.id = details.id) = some song0 := hfd
        have hp := List.find?_some hfd'
        exact ⟨song0, List.mem_of_find?_eq_some hfd', hp⟩
      unfold insert_song_with_artists
      rw [hany]
      simp only [reduceIte]
      rcases hloop : insertArtistsLoop
          (update_song_message_link db details.id (permalink.getD ""))
          details.id details.artists with _ | db2
      · simpa using hfetch1
      · have hs2 := insertArtistsLoop_songs hloop
        simp only []
        unfold fetch_songs at hfetch1 ⊢
        rw [hs2]
        exact hfetch1

/-- C4 counterexample: the claim fails for a non-null but EMPTY link.
Submitting a fresh track while the permalink call returns the empty string
stores `message_link = some ""` (non-null); a later re-submission with a
real permalink passes the falsy-link backfill guard and overwrites it. -/
theorem C4_counterexample :
    (fetch_songs (applyOp emptyDB (Op.submit exDetailsFresh "U1" (some "")))
        "trkE").map Song.message_link = some (some "") ∧
    (fetch_songs
        (applyOp (applyOp emptyDB (Op.submit exDetailsFresh "U1" (some "")))
          (Op.submit exDetailsFresh "U2" (some "https://x/p2")))
        "trkE").map Song.message_link = some (some "https://x/p2") := by
  decide

/-- C4 (amended): once a track row's canonical link is non-null AND
nonempty (Python-truthy), no engine operation — track submission with its
backfill, reaction add, or reaction remove — changes the row at all: the
backfill only writes over a falsy link, re-submission inserts with
OR IGNORE, and the reaction handlers never touch the songs table. -/
theorem C4_link_never_overwritten (db : DB) (op : Op) (tid l : String)
    (song : Song) (hne : l ≠ "")
    (hfind : fetch_songs db tid = some song)
    (hlink : song.message_link = some l) :
    fetch_songs (applyOp db op) tid = some song := by
  have hempty : l.isEmpty = false := by
    cases h : l.isEmpty
    · rfl
    · exact absurd ((String.isEmpty_iff l).mp h) hne
  have htruthy : isTruthy song.message_link = true := by
    rw [hlink]; simp [isTruthy, hempty]
  cases op with
  | submit details user permalink =>
    exact fetch_songs_submit db details user permalink tid song hfind
      (fun _ => htruthy)
  | reactAdd r u ts t =>
    show fetch_songs (handleReactionAdded db r u ts t).2 tid = some song
    unfold fetch_songs at hfind ⊢
    rw [handleReactionAdded_songs]
    exact hfind
  | reactRemove r u ts t =>
    show fetch_songs (handleReactionRemoved db r u ts t).2 tid = some song
    unfold fetch_songs at hfind ⊢
    rw [handleReactionRemoved_songs]
    exact hfind

/-- C4 witness: re-submitting `trk1` with a fresh permalink leaves its
stored row — canonical link included — unchanged. -/
theorem C4_witness :
    fetch_songs
      (applyOp exDB (Op.submit exDetails "U_other"
        (some "https://myworkspace.slack.com/archives/C0001/p9999999999999999")))
      "trk1" = some exSong1 :=
  C4_link_never_overwritten exDB
    (Op.submit exDetails "U_other"
      (some "https://myworkspace.slack.com/archives/C0001/p9999999999999999"))
    "trk1" exLink exSong1 (by decide) (by decide) (by decide)

/-! ## C8 — unrated songs for a user -/

theorem pairwise_id_inj {l : List Song}
    (hpw : l.Pairwise (fun a b => a.id ≠ b.id)) :
    ∀ a ∈ l, ∀ b ∈ l, a.id = b.id → a = b := by
  induction l with
  | nil => simp
  | cons x xs ih =>
    rcases List.pairwise_cons.mp hpw with ⟨hx, hxs⟩
    intro a ha b hb hab
    rcases List.mem_cons.mp ha with rfl | ha'
    · rcases List.mem_cons.mp hb with rfl | hb'
      · rfl
      · exact absurd hab (hx b hb')
    · rcases List.mem_cons.mp hb with rfl | hb'
      · exact absurd hab.symm (hx a ha')
      · exact ih hxs a ha' b hb' hab

/-- C8: on a store whose song ids are unique (the PRIMARY KEY invariant),
`get_unrated_songs U` contains exactly the stored tracks with no reaction
by `U` that were not submitted by `U`; in particular a track submitted by
`U` is excluded even when `U` has not reacted to it. -/
theorem C8_unrated_characterization (db : DB) (uid : String) (s : Song)
    (hpw : db.songs.Pairwise (fun a b => a.id ≠ b.id))
    (hmem : s ∈ db.songs) :
    ((∃ e ∈ get_unrated_songs db uid, e.id = s.id) ↔
      ((¬∃ r ∈ db.reactions, r.song_id = s.id ∧ r.user = uid) ∧ s.user ≠ uid)) ∧
    (s.user = uid → ¬∃ e ∈ get_unrated_songs db uid, e.id = s.id) := by
  have hiff : (∃ e ∈ get_unrated_songs db uid, e.id = s.id) ↔
      ((¬∃ r ∈ db.reactions, r.song_id = s.id ∧ r.user = uid) ∧ s.user ≠ uid) := by
    unfold get_unrated_songs
    constructor
    · rintro ⟨e, he, heid⟩
      rw [List.mem_map] at he
      obtain ⟨s', hs', hes⟩ := he
      rw [List.mem_filter] at hs'
      obtain ⟨hs'mem, hs'pred⟩ := hs'
      have hid : s'.id = s.id := by rw [← hes] at heid; exact heid
      have hss : s' = s := pairwise_id_inj hpw s' hs'mem s hmem hid
      subst hss
      rw [decide_eq_true_eq] at hs'pred
      obtain ⟨hnot, hneq⟩ := hs'pred
      refine ⟨?_, hneq⟩
      rintro ⟨r, hr, hrs, hru⟩
      apply hnot
      rw [List.mem_map]
      exact ⟨r, List.mem_filter.mpr ⟨hr, by simp [hru]⟩, hrs⟩
    · rintro ⟨hnr, hnu⟩
      refine ⟨⟨s.id, s.title, s.album, artistNamesOf db s.id, s.message_link⟩,
        ?_, rfl⟩
      rw [List.mem_map]
      refine ⟨s, ?_, rfl⟩
      rw [List.mem_filter]
      refine ⟨hmem, ?_⟩
      rw [decide_eq_true_eq]
      refine ⟨?_, hnu⟩
      intro hin
      rw [List.mem_map] at hin
      obtain ⟨r, hrf, hrs⟩ := hin
      rw [List.mem_filter] at hrf
      exact hnr ⟨r, hrf.1, hrs, by simpa using hrf.2⟩
  exact ⟨hiff, fun hu hex => ((hiff.mp hex).2) hu⟩

/-- C8 witness: the characterization evaluated on the example store for the
user who has already rated `trk1`. -/
theorem C8_witness :
    (∃ e ∈ get_unrated_songs exDB "U_rater", e.id = exSong1.id) ↔
      ((¬∃ r ∈ exDB.reactions, r.song_id = exSong1.id ∧ r.user = "U_rater") ∧
        exSong1.user ≠ "U_rater") :=
  (C8_unrated_characterization exDB "U_rater" exSong1 (by simp [exDB])
    (by simp [exDB])).1

/-! ## C7 — the leaderboard query -/

theorem rankBefore_asymm {a b : TopSongEntry} (h : rankBefore a b) :
    ¬rankBefore b a := by
  unfold rankBefore at *
  rcases h with h1 | ⟨h2, h3⟩ <;> rintro (h1' | ⟨h2', h3'⟩) <;>
    first | linarith | omega

theorem rankGE_trans {a b c : TopSongEntry}
    (h1 : rankGE a b) (h2 : rankGE b c) : rankGE a c := by
  unfold rankGE rankBefore at *
  push_neg at *
  obtain ⟨hab, hab2⟩ := h1
  obtain ⟨hbc, hbc2⟩ := h2
  constructor
  · linarith
  · intro heq
    have hba : b.average_reaction = a.average_reaction := by linarith
    have hcb : c.average_reaction = b.average_reaction := by linarith
    have := hab2 hba
    have := hbc2 hcb
    omega

theorem mem_insertRanked {x y : TopSongEntry} {l : List TopSongEntry} :
    y ∈ insertRanked x l ↔ y = x ∨ y ∈ l := by
  induction l with
  | nil => simp [insertRanked]
  | cons a as ih =>
    unfold insertRanked
    split
    · simp [List.mem_cons]
    · simp [List.mem_cons, ih]
      tauto

theorem pairwise_insertRanked {x : TopSongEntry} {l : List TopSongEntry}
    (hl : l.Pairwise rankGE) : (insertRanked x l).Pairwise rankGE := by
  induction l with
  | nil => simp [insertRanked]
  | cons a as ih =>
    rcases List.pairwise_cons.mp hl with ⟨ha, has⟩
    unfold insertRanked
    split
    next h =>
      rw [List.pairwise_cons]
      refine ⟨?_, hl⟩
      intro z hz
      rcases List.mem_cons.mp hz with rfl | hz'
      · exact rankBefore_asymm h
      · exact rankGE_trans (rankBefore_asymm h) (ha z hz')
    next h =>
      rw [List.pairwise_cons]
      constructor
      · intro z hz
        rcases mem_insertRanked.mp hz with rfl | hz'
        · exact h
        · exact ha z hz'
      · exact ih has

theorem pairwise_rankSort (l : List TopSongEntry) :
    (rankSort l).Pairwise rankGE := by
  unfold rankSort
  suffices H : ∀ (l acc : List TopSongEntry), acc.Pairwise rankGE →
      (l.foldl (fun acc x => insertRanked x acc) acc).Pairwise rankGE by
    exact H l [] (by simp)
  intro l
  induction l with
  | nil => intro acc h; simpa using h
  | cons a as ih => intro acc h; exact ih _ (pairwise_insertRanked h)

theorem mem_rankSort {x : TopSongEntry} {l : List TopSongEntry} :
    x ∈ rankSort l ↔ x ∈ l := by
  unfold rankSort
  suffices H : ∀ (l acc : List TopSongEntry),
      (x ∈ l.foldl (fun acc x => insertRanked x acc) acc ↔ x ∈ acc ∨ x ∈ l) by
    simpa using H l []
  intro l
  induction l with
  | nil => intro acc; simp
  | cons a as ih =>
    intro acc
    simp only [List.foldl_cons, ih, mem_insertRanked, List.mem_cons]
    tauto

/-- C7: `get_top_songs` returns at most `limit` rows, every returned row
has at least one recorded contributing artist, the rows are ordered by
(mean reaction DESC, reaction count DESC), the mean of zero reactions is 0,
and on the spec's concrete store — A (mean 9, count 3), B (mean 9,
count 5), C (mean 4, count 1, no artists) — `get_top_songs 2` returns
`[B, A]`: C excluded for lacking an artist, B before A on the count
tie-break. -/
theorem C7_top_songs :
    (∀ (db : DB) (limit : Nat), (get_top_songs db limit).length ≤ limit) ∧
    (∀ (db : DB) (limit : Nat) (e : TopSongEntry),
      e ∈ get_top_songs db limit → e.artists ≠ []) ∧
    (∀ (db : DB) (limit : Nat), (get_top_songs db limit).Pairwise rankGE) ∧
    (∀ (db : DB) (sid : String), songReactionValues db sid = [] →
      averageReaction db sid = 0) ∧
    (get_top_songs topExampleDB 2).map TopSongEntry.id = ["B", "A"] := by
  refine ⟨?_, ?_, ?_, ?_, ?_⟩
  · intro db limit
    unfold get_top_songs
    simp only [List.length_take]
    omega
  · intro db limit e he
    unfold get_top_songs at he
    have he' := List.take_subset _ _ he
    rw [mem_rankSort] at he'
    rw [List.mem_map] at he'
    obtain ⟨s, hs, rfl⟩ := he'
    rw [List.mem_filter] at hs
    have hp := hs.2
    rw [decide_eq_true_eq] at hp
    simpa [toTopEntry] using hp
  · intro db limit
    unfold get_top_songs
    exact (pairwise_rankSort _).sublist (List.take_sublist _ _)
  · intro db sid h
    simp [averageReaction, h]
  · have h1 : topExampleDB.songs.filter
        (fun s => artistNamesOf topExampleDB s.id ≠ []) =
        [⟨"A", "Song A", "AlbA", "U1", none⟩,
         ⟨"B", "Song B", "AlbB", "U2", none⟩] := by decide
    have hvsA : songReactionValues topExampleDB "A" = [9, 9, 9] := by decide
    have hvsB : songReactionValues topExampleDB "B" = [9, 9, 9, 9, 9] := by
      decide
    have hA : averageReaction topExampleDB "A" = 9 := by
      simp only [averageReaction, hvsA]
      norm_num [List.foldl]
    have hB : averageReaction topExampleDB "B" = 9 := by
      simp only [averageReaction, hvsB]
      norm_num [List.foldl]
    have hrb : rankBefore
        (toTopEntry topExampleDB ⟨"B", "Song B", "AlbB", "U2", none⟩)
        (toTopEntry topExampleDB ⟨"A", "Song A", "AlbA", "U1", none⟩) := by
      refine Or.inr ⟨?_, ?_⟩
      · show averageReaction topExampleDB "B" = averageReaction topExampleDB "A"
        rw [hA, hB]
      · show (songReactionValues topExampleDB "A").length <
          (songReactionValues topExampleDB "B").length
        decide
    have h2 : rankSort ([(⟨"A", "Song A", "AlbA", "U1", none⟩ : Song),
        ⟨"B", "Song B", "AlbB", "U2", none⟩].map (toTopEntry topExampleDB)) =
        [toTopEntry topExampleDB ⟨"B", "Song B", "AlbB", "U2", none⟩,
         toTopEntry topExampleDB ⟨"A", "Song A", "AlbA", "U1", none⟩] := by
      simp [rankSort, insertRanked, hrb]
    simp only [get_top_songs]
    rw [h1, h2]
    rfl

/-- C7 witness: the length bound and the empty-mean clause evaluated on the
example store. -/
theorem C7_witness :
    (get_top_songs topExampleDB 2).length ≤ 2 ∧
    averageReaction topExampleDB "unknown-track" = 0 :=
  ⟨C7_top_songs.1 topExampleDB 2,
   C7_top_songs.2.2.2.1 topExampleDB "unknown-track" (by decide)⟩

/-! ## C9 — the template formatter fails closed only for named keys -/

theorem pyFormat_ok_or_keyError (machinery : FieldMachinery)
    (data : List (String × String)) :
    ∀ (n : Nat) (t : List Char), t.length ≤ n → ∀ ks : List String,
      templateKeys t = some ks →
      ((∀ k ∈ ks, (lookupData data k).isSome = true) →
        ∃ out, pyFormat machinery data t = Except.ok out) ∧
      ((∃ k ∈ ks, lookupData data k = none) →
        pyFormat machinery data t = Except.error PyFormatError.keyError) := by
  intro n
  induction n with
  | zero =>
    intro t ht ks hks
    have hnil : t = [] := List.eq_nil_of_length_eq_zero (Nat.le_zero.mp ht)
    subst hnil
    simp only [templateKeys, Option.some.injEq] at hks
    subst hks
    refine ⟨fun _ => ⟨[], by simp [pyFormat]⟩, ?_⟩
    rintro ⟨k, hk, _⟩
    exact absurd hk (List.not_mem_nil k)
  | succ n ih =>
    intro t ht ks hks
    rcases t with _ | ⟨c, rest⟩
    · simp only [templateKeys, Option.some.injEq] at hks
      subst hks
      refine ⟨fun _ => ⟨[], by simp [pyFormat]⟩, ?_⟩
      rintro ⟨k, hk, _⟩
      exact absurd hk (List.not_mem_nil k)
    · have hrest : rest.length ≤ n := by
        simp only [List.length_cons] at ht; omega
      by_cases hc1 : c = '{'
      · subst hc1
        by_cases hh : rest.head? = some '{'
        · simp only [templateKeys, if_true] at hks
          rw [if_pos hh] at hks
          have htail : rest.tail.length ≤ n := by
            have := List.length_tail rest
            omega
          obtain ⟨p1, p2⟩ := ih rest.tail htail ks hks
          constructor
          · intro hall
            obtain ⟨out, hout⟩ := p1 hall
            refine ⟨'{' :: out, ?_⟩
            simp only [pyFormat, if_true]
            rw [if_pos hh, hout]
            rfl
          · intro hmiss
            simp only [pyFormat, if_true]
            rw [if_pos hh, p2 hmiss]
            rfl
        · simp only [templateKeys, if_true] at hks
          rw [if_neg hh] at hks
          split at hks
          next heq => exact absurd hks (by simp)
          next field rest' heq =>
            by_cases hany : field.any (fun ch => ch ∈ fieldSyntaxChars)
            · rw [if_pos hany] at hks
              exact absurd hks (by simp)
            · rw [if_neg hany] at hks
              by_cases hdig : field.all Char.isDigit
              · rw [if_pos hdig] at hks
                exact absurd hks (by simp)
              · rw [if_neg hdig] at hks
                rw [Option.map_eq_some'] at hks
                obtain ⟨ks', hks', hkseq⟩ := hks
                subst hkseq
                have hrest' : rest'.length ≤ n := by
                  have := splitField_length heq
                  omega
                obtain ⟨p1, p2⟩ := ih rest' hrest' ks' hks'
                constructor
                · intro hall
                  have hkey : (lookupData data (String.mk field)).isSome = true :=
                    hall (String.mk field) (by simp)
                  rcases hlk : lookupData data (String.mk field) with _ | v
                  · rw [hlk] at hkey
                    simp at hkey
                  · have hall' : ∀ k ∈ ks', (lookupData data k).isSome = true :=
                      fun k hk => hall k (by simp [hk])
                    obtain ⟨out, hout⟩ := p1 hall'
                    refine ⟨v.data ++ out, ?_⟩
                    simp only [pyFormat, if_true]
                    rw [if_neg hh]
                    split
                    next heq2 => rw [heq] at heq2; cases heq2
                    next field2 rest'2 heq2 =>
                      rw [heq] at heq2
                      injection heq2 with hp
                      injection hp with hf hr
                      subst hf
                      subst hr
                      rw [if_neg hany, if_neg hdig, hlk]
                      simp [hout, Except.map]
                · intro hmiss
                  rcases hlk : lookupData data (String.mk field) with _ | v
                  · simp only [pyFormat, if_true]
                    rw [if_neg hh]
                    split
                    next heq2 => rw [heq] at heq2; cases heq2
                    next field2 rest'2 heq2 =>
                      rw [heq] at heq2
                      injection heq2 with hp
                      injection hp with hf hr
                      subst hf
                      subst hr
                      rw [if_neg hany, if_neg hdig, hlk]
                  · have hmiss' : ∃ k ∈ ks', lookupData data k = none := by
                      obtain ⟨k, hk, hknone⟩ := hmiss
                      rcases List.mem_cons.mp hk with rfl | hk'
                      · rw [hlk] at hknone
                        cases hknone
                      · exact ⟨k, hk', hknone⟩
                    have herr := p2 hmiss'
                    simp only [pyFormat, if_true]
                    rw [if_neg hh]
                    split
                    next heq2 => rw [heq] at heq2; cases heq2
                    next field2 rest'2 heq2 =>
                      rw [heq] at heq2
                      injection heq2 with hp
                      injection hp with hf hr
                      subst hf
                      subst hr
                      rw [if_neg hany, if_neg hdig, hlk]
                      simp [herr, Except.map]
      · by_cases hc2 : c = '}'
        · subst hc2
          by_cases hh : rest.head? = some '}'
          · simp only [templateKeys, if_true] at hks
            rw [if_pos hh] at hks
            have htail : rest.tail.length ≤ n := by
              have := List.length_tail rest
              omega
            obtain ⟨p1, p2⟩ := ih rest.tail htail ks hks
            constructor
            · intro hall
              obtain ⟨out, hout⟩ := p1 hall
              refine ⟨'}' :: out, ?_⟩
              simp only [pyFormat, if_true]
              rw [if_pos hh, hout]
              rfl
            · intro hmiss
              simp only [pyFormat, if_true]
              rw [if_pos hh, p2 hmiss]
              rfl
          · simp only [templateKeys, if_true] at hks
            rw [if_neg hh] at hks
            exact absurd hks (by simp)
        · simp only [templateKeys] at hks
          rw [if_neg hc1, if_neg hc2] at hks
          obtain ⟨p1, p2⟩ := ih rest hrest ks hks
          constructor
          · intro hall
            obtain ⟨out, hout⟩ := p1 hall
            refine ⟨c :: out, ?_⟩
            simp only [pyFormat]
            rw [if_neg hc1, if_neg hc2, hout]
            rfl
          · intro hmiss
            simp only [pyFormat]
            rw [if_neg hc1, if_neg hc2, p2 hmiss]
            rfl

/-- C9 counterexample: the claim quantifies over EVERY template string, but
`format_stats_message` catches only `KeyError`.  The template `"{"` has no
placeholder keys at all (so the claim says it returns the substituted
template), yet CPython raises `ValueError` for the single `'{'`, which
propagates to the caller.  The template never parses a replacement field,
so the field machinery (here the trivial instantiation) is never consulted
and the outcome is the same for every instantiation. -/
theorem C9_counterexample :
    format_stats_message noFieldMachinery "\x7b" [] =
      Except.error PyFormatError.valueError := by
  have hdata : ("\x7b" : String).data = ['\x7b'] := rfl
  simp [format_stats_message, hdata, pyFormat, splitField, splitFieldGo]

/-- C9 (amended): for every template whose replacement fields are all
PLAIN named fields — a nonempty, not-all-digit field name with no
conversion, format-spec, attribute, index or nested-brace syntax — and
every data dictionary, `format_stats_message` returns the substituted
template when every placeholder key is present, and the fixed literal
`"Error formatting message. Missing data."` when some placeholder key is
missing; the `KeyError` is caught and never propagated.  Such templates
never reach the field machinery, so the statement holds for every
instantiation of it.  (Templates with positional fields or unmatched
braces raise `IndexError`/`ValueError`, which the function does NOT catch,
and fields with conversion/spec/attribute/index syntax — e.g. the
program's own `\x7brating_percentage:.1f\x7d` — are rendered by the
machinery and are outside this dichotomy.) -/
theorem C9_format_fails_closed (machinery : FieldMachinery)
    (template : String) (data : List (String × String)) (ks : List String)
    (hwf : templateKeys template.data = some ks) :
    ((∀ k ∈ ks, (lookupData data k).isSome = true) →
      ∃ out, pyFormat machinery data template.data = Except.ok out ∧
        format_stats_message machinery template data =
          Except.ok (String.mk out)) ∧
    ((∃ k ∈ ks, lookupData data k = none) →
      format_stats_message machinery template data =
        Except.ok "Error formatting message. Missing data.") := by
  obtain ⟨p1, p2⟩ := pyFormat_ok_or_keyError machinery data
    template.data.length template.data le_rfl ks hwf
  constructor
  · intro hall
    obtain ⟨out, hout⟩ := p1 hall
    exact ⟨out, hout, by simp [format_stats_message, hout]⟩
  · intro hmiss
    simp [format_stats_message, p2 hmiss]

/-- C9 witness: the missing-key clause on the template `"Hello {name}"`
with empty data. -/
theorem C9_witness :
    format_stats_message noFieldMachinery "Hello {name}" [] =
      Except.ok "Error formatting message. Missing data." :=
  (C9_format_fails_closed noFieldMachinery "Hello {name}" [] ["name"]
    (by
      have hdata : ("Hello {name}" : String).data =
        ['H', 'e', 'l', 'l', 'o', ' ', '{', 'n', 'a', 'm', 'e', '}'] := rfl
      have hsf : splitField ['n', 'a', 'm', 'e', '}'] =
        some (['n', 'a', 'm', 'e'], []) := rfl
      simp [templateKeys, hdata]
      split
      next heq => rw [hsf] at heq; cases heq
      next field rest' heq =>
        rw [hsf] at heq
        injection heq with hp
        injection hp with hf hr
        subst hf
        subst hr
        rw [if_neg (by decide), if_neg (by decide)]
        have h0 : templateKeys [] = some [] := by simp [templateKeys]
        rw [h0]
        rfl)).2
    ⟨"name", by simp, rfl⟩

end SpotifyBot
